import Mathlib

/-!
Verification of `load_orders.py`: a one-shot batch loader that reads order
records from a JSON document and inserts them into an SQLite table `orders`,
counting inserted / skipped-duplicate / errored records.

The embedding is shallow: Python dict records become structures with
`Option` fields (a missing key is `none`); the SQLite table becomes a list
of rows in insertion order; the loop body of `OrdersDatabase.insert_orders`
becomes the step function `processOrder`, and the whole method a left fold
over the input list.
-/

/-- A parsed timestamp, the result of `datetime.fromisoformat`. -/
structure DateTime where
  year : Nat
  month : Nat
  day : Nat
  hour : Nat
  minute : Nat
  second : Nat
deriving DecidableEq, Repr

/-- The numeric value of a single decimal digit character, if it is one. -/
def digitVal (c : Char) : Option Nat :=
  if c.isDigit then some (c.toNat - 48) else none

/-- Two decimal digit characters read as a number. -/
def parse2 (a b : Char) : Option Nat := do
  let x ← digitVal a
  let y ← digitVal b
  pure (10 * x + y)

/-- Four decimal digit characters read as a number. -/
def parse4 (a b c d : Char) : Option Nat := do
  let x ← parse2 a b
  let y ← parse2 c d
  pure (100 * x + y)

/-- Gregorian leap-year rule, as used by Python's `datetime`. -/
def isLeap (y : Nat) : Bool :=
  (y % 4 == 0 && y % 100 != 0) || (y % 400 == 0)

/-- Number of days in a month of a given year. -/
def daysInMonth (y m : Nat) : Nat :=
  if m == 2 then (if isLeap y then 29 else 28)
  else if m == 4 || m == 6 || m == 9 || m == 11 then 30
  else 31

/-- The `HH`, `HH:MM` or `HH:MM:SS` time part of an ISO-8601 string,
with the range checks `datetime` performs. -/
def parseTimePart (cs : List Char) : Option (Nat × Nat × Nat) := do
  let (h, m, s) ←
    match cs with
    | [h1, h2] => do
        let h ← parse2 h1 h2
        pure (h, 0, 0)
    | [h1, h2, ':', m1, m2] => do
        let h ← parse2 h1 h2
        let m ← parse2 m1 m2
        pure (h, m, 0)
    | [h1, h2, ':', m1, m2, ':', s1, s2] => do
        let h ← parse2 h1 h2
        let m ← parse2 m1 m2
        let s ← parse2 s1 s2
        pure (h, m, s)
    | _ => none
  if h ≤ 23 ∧ m ≤ 59 ∧ s ≤ 59 then pure (h, m, s) else none

/-- Model of Python's `datetime.fromisoformat`, restricted to the forms the
loader's inputs use: `YYYY-MM-DD`, optionally followed by a one-character
separator and a time part `HH[:MM[:SS]]`, with calendar validation
(month 1–12, day within the month, year at least 1).  Any string not of
this shape — such as `"not-a-date"` — is rejected, as `fromisoformat`
raises `ValueError` on it. -/
def fromisoformat (str : String) : Option DateTime :=
  match str.data with
  | y1 :: y2 :: y3 :: y4 :: '-' :: m1 :: m2 :: '-' :: d1 :: d2 :: rest => do
      let y ← parse4 y1 y2 y3 y4
      let m ← parse2 m1 m2
      let d ← parse2 d1 d2
      if 1 ≤ y ∧ 1 ≤ m ∧ m ≤ 12 ∧ 1 ≤ d ∧ d ≤ daysInMonth y m then
        match rest with
        | [] => pure ⟨y, m, d, 0, 0, 0⟩
        | _sep :: timecs => do
            let (hh, mm, ss) ← parseTimePart timecs
            pure ⟨y, m, d, hh, mm, ss⟩
      else none
  | _ => none

/-- An input order record: a JSON object whose keys may be absent.
`customer` is `none` when the `customer` key is missing, and
`some none` when `customer` is present but has no `region` key
(mirroring `raw.get("customer", {}).get("region")`). -/
structure Rec where
  order_id : Option String
  status : Option String
  date : Option String
  amount : Option ℚ
  customer : Option (Option String)
deriving DecidableEq, Repr

/-- `raw.get("customer", {}).get("region")` from line 123. -/
def Rec.region (r : Rec) : Option String :=
  r.customer.join

/-- A persisted row of the `orders` table (the `loaded_at` column is a
server-side default carrying no information from the record). -/
structure Row where
  order_id : String
  status : String
  date : DateTime
  amount : ℚ
  customer_region : String
deriving DecidableEq, Repr

/-- The `orders` table: rows in insertion order. -/
structure DB where
  table : List Row
deriving DecidableEq, Repr

/-- The primary keys present in the table. -/
def tableKeys (db : DB) : List String :=
  db.table.map (fun row => row.order_id)

/-- `SELECT order_id FROM orders` collected into the duplicate-detection
baseline (`get_existing_order_ids`, lines 88–98). -/
def get_existing_order_ids (db : DB) : List String :=
  tableKeys db

/-- `INSERT INTO orders ...` (lines 142–148): fails with `IntegrityError`
(modelled as `none`) when the primary key is already present, otherwise
appends the row. -/
def dbInsert (db : DB) (row : Row) : Option DB :=
  if row.order_id ∈ tableKeys db then none
  else some ⟨db.table ++ [row]⟩

/-- The mutable state of the insertion loop in `insert_orders`:
the database, the in-memory `existing_ids` set, and the three counters. -/
structure BatchState where
  db : DB
  existing : List String
  inserted : Nat
  skipped : Nat
  errors : Nat
deriving DecidableEq, Repr

/-- One iteration of the `for raw in orders` loop of `insert_orders`
(lines 112–164), translated branch by branch:
`raw["order_id"]` missing raises `KeyError` → `errors` (line 153);
`order_id in existing_ids` → `skipped` (lines 115–118);
`raw["status"]`, `raw["date"]`, `raw["amount"]` missing → `errors`;
unparsable date → `errors` (lines 126–133);
`customer_region is None` → `errors` (lines 135–140);
`IntegrityError` on insert → `skipped` (lines 156–161);
successful insert → `inserted`, key added to `existing_ids`
(lines 149–150). -/
def processOrder (s : BatchState) (raw : Rec) : BatchState :=
  match raw.order_id with
  | none => { s with errors := s.errors + 1 }
  | some oid =>
    if oid ∈ s.existing then
      { s with skipped := s.skipped + 1 }
    else
      match raw.status with
      | none => { s with errors := s.errors + 1 }
      | some st =>
        match raw.date with
        | none => { s with errors := s.errors + 1 }
        | some date_str =>
          match raw.amount with
          | none => { s with errors := s.errors + 1 }
          | some amount =>
            match fromisoformat date_str with
            | none => { s with errors := s.errors + 1 }
            | some order_dt =>
              match raw.region with
              | none => { s with errors := s.errors + 1 }
              | some reg =>
                match dbInsert s.db ⟨oid, st, order_dt, amount, reg⟩ with
                | none => { s with skipped := s.skipped + 1 }
                | some db2 =>
                  { s with db := db2
                         , inserted := s.inserted + 1
                         , existing := oid :: s.existing }

/-- The state at the top of the loop (lines 105–110): zero counters and
`existing_ids` seeded from the table. -/
def initState (db : DB) : BatchState :=
  { db := db, existing := get_existing_order_ids db
  , inserted := 0, skipped := 0, errors := 0 }

/-- `OrdersDatabase.insert_orders` (lines 100–170): seed `existing_ids`
from the table, fold the loop body over the records in input order,
return the counter triple together with the updated database (the Python
method mutates `self.conn` in place; the embedding passes it explicitly). -/
def insert_orders (db : DB) (orders : List Rec) : (Nat × Nat × Nat) × DB :=
  let final := orders.foldl processOrder (initState db)
  ((final.inserted, final.skipped, final.errors), final.db)

/-- The row a record would produce if it passes every check: all four
top-level fields present, date parsable, region present. -/
def toRow (r : Rec) : Option Row :=
  match r.order_id, r.status, r.date, r.amount, r.region with
  | some oid, some st, some ds, some am, some reg =>
      (fromisoformat ds).map (fun dt => ⟨oid, st, dt, am, reg⟩)
  | _, _, _, _, _ => none

/-- The order ids carried by a list of records (records missing the key
contribute nothing). -/
def orderIds (l : List Rec) : List String :=
  l.filterMap (fun r => r.order_id)

/-- Errors `load_json` lets escape: `FileNotFoundError` and
`json.JSONDecodeError` (lines 180–185). -/
inductive LoadError where
  | NotFound
  | ParseError
deriving DecidableEq, Repr

/-- `load_json` (lines 173–185), parametric over the filesystem (`open` +
read: `none` when the path does not exist) and the JSON parser
(`json.load`: `none` on invalid JSON).  The function only logs and
re-raises around the stdlib calls; it returns the parsed data unchanged. -/
def load_json (fs : String → Option String)
    (jsonLoad : String → Option (List Rec)) (path : String) :
    Except LoadError (List Rec) :=
  match fs path with
  | none => .error .NotFound
  | some content =>
    match jsonLoad content with
    | none => .error .ParseError
    | some data => .ok data

/-- Errors a Python method call can raise in the model of `close`. -/
inductive PyError where
  | attributeError
deriving DecidableEq, Repr

/-- The connection handle of `OrdersDatabase`: `none` before `connect`
succeeds (set in `__init__`, line 52), `some true` while open,
`some false` after `Connection.close()`. -/
structure OrdersDatabase where
  conn : Option Bool
deriving DecidableEq, Repr

/-- A fresh `OrdersDatabase()` (lines 49–52): `self.conn = None`. -/
def OrdersDatabase.init : OrdersDatabase := ⟨none⟩

/-- `sqlite3.Connection.close()`: closing a connection object never
raises, also when it is already closed. -/
def connClose (_isOpen : Bool) : Except PyError Bool :=
  .ok false

/-- Calling a method on `None` raises `AttributeError`; the model of what
`self.conn.close()` would do without the guard. -/
def pyCallClose (conn : Option Bool) : Except PyError Bool :=
  match conn with
  | none => .error .attributeError
  | some b => connClose b

/-- `OrdersDatabase.close` (lines 62–65): `if self.conn:` guards the call,
so a `None` handle is left untouched and nothing is raised. -/
def OrdersDatabase.close (d : OrdersDatabase) : Except PyError OrdersDatabase :=
  match d.conn with
  | none => .ok d
  | some b =>
    match connClose b with
    | .error e => .error e
    | .ok b2 => .ok ⟨some b2⟩

/-- The loop invariant relating the in-memory `existing_ids` set to the
persisted table: every primary key in the table is in the set. -/
def keysSub (s : BatchState) : Prop :=
  ∀ k ∈ tableKeys s.db, k ∈ s.existing

instance (s : BatchState) : Decidable (keysSub s) :=
  inferInstanceAs (Decidable (∀ k ∈ tableKeys s.db, k ∈ s.existing))

/-- The spec's single-record scenario input. -/
def recA1 : Rec :=
  ⟨some "A1", some "paid", some "2024-01-05T10:00:00", some (9.99 : ℚ), some (some "EU")⟩

/-- The row `recA1` produces. -/
def rowA1 : Row := ⟨"A1", "paid", ⟨2024, 1, 5, 10, 0, 0⟩, (9.99 : ℚ), "EU"⟩

/-- A valid record repeating `order_id = "A1"` with different field values,
to observe that a duplicate never overwrites the stored row. -/
def recDupA1 : Rec :=
  ⟨some "A1", some "shipped", some "2024-02-06T11:30:00", some 5, some (some "US")⟩

/-- A store already holding the row for `"A1"`. -/
def dbA1 : DB := ⟨[rowA1]⟩

/-- A record whose `order_id` duplicates a stored key but whose other
required fields are all missing. -/
def recMissingStatus : Rec := ⟨some "A1", none, none, none, none⟩

/-- A record with an unparsable date and every other field valid. -/
def recBadDate : Rec :=
  ⟨some "B1", some "paid", some "not-a-date", some 1, some (some "EU")⟩

/-- A fully valid record distinct from the others. -/
def recB2 : Rec := ⟨some "B2", some "new", some "2024-03-01", some 2, some (some "EU")⟩

/-- A valid record except that the `customer` key is missing entirely. -/
def recNoRegion : Rec := ⟨some "C1", some "paid", some "2024-01-05", some 3, none⟩

/-- A valid record except that `customer` is present without a `region` key. -/
def recEmptyCustomer : Rec :=
  ⟨some "C2", some "paid", some "2024-01-05", some 3, some none⟩

/-- A record with a fresh `order_id` but no `amount` key. -/
def recNoAmount : Rec :=
  ⟨some "D1", some "paid", some "2024-01-05", none, some (some "EU")⟩

/-- The row `recB2` produces. -/
def rowB2 : Row := ⟨"B2", "new", ⟨2024, 3, 1, 0, 0, 0⟩, 2, "EU"⟩

/-- A loop state over an empty store. -/
def stateEmpty : BatchState := ⟨⟨[]⟩, [], 0, 0, 0⟩

/-- A loop state whose store and `existing_ids` set already hold `"A1"`. -/
def stateA1 : BatchState := ⟨dbA1, ["A1"], 0, 0, 0⟩

/-- A filesystem with no files, used to exercise `load_json`. -/
def fsEmpty : String → Option String := fun _ => none

/-! ## Helper lemmas -/

lemma dbInsert_keys {db : DB} {row : Row} {db2 : DB}
    (h : dbInsert db row = some db2) :
    tableKeys db2 = tableKeys db ++ [row.order_id] := by
  unfold dbInsert at h
  split at h
  · cases h
  · cases h
    simp [tableKeys]

lemma processOrder_keysSub {s : BatchState} (hs : keysSub s) (r : Rec) :
    keysSub (processOrder s r) := by
  unfold processOrder
  cases r.order_id with
  | none => exact hs
  | some oid =>
    dsimp only
    by_cases hmem : oid ∈ s.existing
    · rw [if_pos hmem]; exact hs
    · rw [if_neg hmem]
      cases r.status with
      | none => exact hs
      | some st =>
        cases r.date with
        | none => exact hs
        | some ds =>
          cases r.amount with
          | none => exact hs
          | some am =>
            dsimp only
            cases fromisoformat ds with
            | none => exact hs
            | some dt =>
              cases r.region with
              | none => exact hs
              | some reg =>
                dsimp only
                cases hins : dbInsert s.db ⟨oid, st, dt, am, reg⟩ with
                | none => exact hs
                | some db2 =>
                  dsimp only
                  intro k hk
                  rw [show tableKeys db2 = tableKeys s.db ++ [oid] from
                    dbInsert_keys hins] at hk
                  rcases List.mem_append.mp hk with h1 | h1
                  · exact List.mem_cons_of_mem _ (hs k h1)
                  · simp only [List.mem_singleton] at h1
                    subst h1
                    exact List.mem_cons_self _ _

lemma processOrder_counter_sum (s : BatchState) (r : Rec) :
    (processOrder s r).inserted + (processOrder s r).skipped
      + (processOrder s r).errors
      = s.inserted + s.skipped + s.errors + 1 := by
  unfold processOrder
  cases r.order_id with
  | none => dsimp only; omega
  | some oid =>
    dsimp only
    by_cases hmem : oid ∈ s.existing
    · rw [if_pos hmem]; dsimp only; omega
    · rw [if_neg hmem]
      cases r.status with
      | none => dsimp only; omega
      | some st =>
        cases r.date with
        | none => dsimp only; omega
        | some ds =>
          cases r.amount with
          | none => dsimp only; omega
          | some am =>
            dsimp only
            cases fromisoformat ds with
            | none => dsimp only; omega
            | some dt =>
              cases r.region with
              | none => dsimp only; omega
              | some reg =>
                dsimp only
                cases dbInsert s.db ⟨oid, st, dt, am, reg⟩ with
                | none => dsimp only; omega
                | some db2 => dsimp only; omega

lemma foldl_counter_sum (orders : List Rec) (s : BatchState) :
    (orders.foldl processOrder s).inserted + (orders.foldl processOrder s).skipped
      + (orders.foldl processOrder s).errors
      = s.inserted + s.skipped + s.errors + orders.length := by
  induction orders generalizing s with
  | nil => simp
  | cons r rest ih =>
    rw [List.foldl_cons, ih, processOrder_counter_sum]
    simp
    omega

lemma foldl_keysSub (orders : List Rec) (s : BatchState) (hs : keysSub s) :
    keysSub (orders.foldl processOrder s) := by
  induction orders generalizing s with
  | nil => exact hs
  | cons r rest ih => exact ih _ (processOrder_keysSub hs r)

lemma toRow_fields {r : Rec} {row : Row} (h : toRow r = some row) :
    r.order_id = some row.order_id ∧ r.status = some row.status ∧
    (∃ ds, r.date = some ds ∧ fromisoformat ds = some row.date) ∧
    r.amount = some row.amount ∧ r.region = some row.customer_region := by
  unfold toRow at h
  cases h1 : r.order_id with
  | none => simp only [h1] at h; exact Option.noConfusion h
  | some oid =>
  cases h2 : r.status with
  | none => simp only [h1, h2] at h; exact Option.noConfusion h
  | some st =>
  cases h3 : r.date with
  | none => simp only [h1, h2, h3] at h; exact Option.noConfusion h
  | some ds =>
  cases h4 : r.amount with
  | none => simp only [h1, h2, h3, h4] at h; exact Option.noConfusion h
  | some am =>
  cases h5 : r.region with
  | none => simp only [h1, h2, h3, h4, h5] at h; exact Option.noConfusion h
  | some reg =>
  rw [h1, h2, h3, h4, h5] at h
  dsimp only at h
  cases h6 : fromisoformat ds with
  | none => rw [h6] at h; exact Option.noConfusion h
  | some dt =>
    rw [h6] at h
    simp only [Option.map_some'] at h
    injection h with h7
    subst h7
    exact ⟨rfl, rfl, ⟨ds, rfl, h6⟩, rfl, rfl⟩

lemma processOrder_dup {s : BatchState} {r : Rec} {oid : String}
    (h1 : r.order_id = some oid) (h2 : oid ∈ s.existing) :
    processOrder s r = { s with skipped := s.skipped + 1 } := by
  unfold processOrder
  rw [h1]
  dsimp only
  rw [if_pos h2]

lemma processOrder_error {s : BatchState} {r : Rec}
    (hnd : ∀ oid, r.order_id = some oid → oid ∉ s.existing)
    (hbad : r.order_id = none ∨ r.status = none ∨ r.date = none ∨ r.amount = none
      ∨ (∃ ds, r.date = some ds ∧ fromisoformat ds = none) ∨ r.region = none) :
    processOrder s r = { s with errors := s.errors + 1 } := by
  unfold processOrder
  cases h1 : r.order_id with
  | none => rfl
  | some oid =>
    dsimp only
    rw [if_neg (hnd oid h1)]
    cases h2 : r.status with
    | none => rfl
    | some st =>
      dsimp only
      cases h3 : r.date with
      | none => rfl
      | some ds =>
        dsimp only
        cases h4 : r.amount with
        | none => rfl
        | some am =>
          dsimp only
          cases h6 : fromisoformat ds with
          | none => rfl
          | some dt =>
            dsimp only
            cases h5 : r.region with
            | none => rfl
            | some reg =>
              exfalso
              rcases hbad with h | h | h | h | ⟨ds2, hd2, hf2⟩ | h
              · rw [h1] at h; cases h
              · rw [h2] at h; cases h
              · rw [h3] at h; cases h
              · rw [h4] at h; cases h
              · rw [h3] at hd2
                injection hd2 with e
                subst e
                rw [h6] at hf2
                cases hf2
              · rw [h5] at h; cases h

lemma processOrder_insert {s : BatchState} {r : Rec} {row : Row}
    (hrow : toRow r = some row) (hfresh : row.order_id ∉ s.existing)
    (hsub : keysSub s) :
    processOrder s r = { s with
      db := ⟨s.db.table ++ [row]⟩,
      inserted := s.inserted + 1,
      existing := row.order_id :: s.existing } := by
  obtain ⟨h1, h2, ⟨ds, h3, h6⟩, h4, h5⟩ := toRow_fields hrow
  have hnotkey : row.order_id ∉ tableKeys s.db := fun hk => hfresh (hsub _ hk)
  unfold processOrder
  rw [h1]
  dsimp only
  rw [if_neg hfresh, h2]
  dsimp only
  rw [h3]
  dsimp only
  rw [h4]
  dsimp only
  rw [h6]
  dsimp only
  rw [h5]
  dsimp only
  unfold dbInsert
  rw [if_neg hnotkey]

lemma keys_filterMap (orders : List Rec)
    (hval : ∀ r ∈ orders, (toRow r).isSome) :
    (orders.filterMap toRow).map (fun row => row.order_id) = orderIds orders := by
  induction orders with
  | nil => rfl
  | cons r rest ih =>
    obtain ⟨row, hrow⟩ := Option.isSome_iff_exists.mp (hval r (by simp))
    have hid : r.order_id = some row.order_id := (toRow_fields hrow).1
    have ihh := ih (fun r2 h2 => hval r2 (by simp [h2]))
    simp [orderIds, List.filterMap_cons, hrow, hid] at ihh ⊢
    simpa [orderIds] using ihh

lemma foldl_fresh (orders : List Rec) (s : BatchState)
    (hval : ∀ r ∈ orders, (toRow r).isSome)
    (hnodup : (orderIds orders).Nodup)
    (hfresh : ∀ oid ∈ orderIds orders, oid ∉ s.existing)
    (hsub : keysSub s) :
    (orders.foldl processOrder s).db.table = s.db.table ++ orders.filterMap toRow ∧
    (orders.foldl processOrder s).inserted = s.inserted + orders.length ∧
    (orders.foldl processOrder s).skipped = s.skipped ∧
    (orders.foldl processOrder s).errors = s.errors := by
  induction orders generalizing s with
  | nil => simp
  | cons r rest ih =>
    obtain ⟨row, hrow⟩ := Option.isSome_iff_exists.mp (hval r (by simp))
    have hid : r.order_id = some row.order_id := (toRow_fields hrow).1
    have hids : orderIds (r :: rest) = row.order_id :: orderIds rest := by
      simp [orderIds, hid]
    rw [hids] at hnodup hfresh
    have hfr : row.order_id ∉ s.existing :=
      hfresh row.order_id (List.mem_cons_self _ _)
    have hstep := processOrder_insert hrow hfr hsub
    have hsub2 : keysSub (processOrder s r) := processOrder_keysSub hsub r
    rw [hstep] at hsub2
    have hhead : row.order_id ∉ orderIds rest := (List.nodup_cons.mp hnodup).1
    have htail : (orderIds rest).Nodup := (List.nodup_cons.mp hnodup).2
    have hfresh2 : ∀ oid ∈ orderIds rest,
        oid ∉ row.order_id :: s.existing := by
      intro oid hm hmem2
      rcases List.mem_cons.mp hmem2 with he | he
      · exact hhead (he ▸ hm)
      · exact hfresh oid (List.mem_cons_of_mem _ hm) he
    obtain ⟨g1, g2, g3, g4⟩ :=
      ih { s with
            db := ⟨s.db.table ++ [row]⟩,
            inserted := s.inserted + 1,
            existing := row.order_id :: s.existing }
        (fun r2 h2 => hval r2 (by simp [h2])) htail hfresh2 hsub2
    rw [List.foldl_cons, hstep]
    refine ⟨?_, ?_, g3, g4⟩
    · rw [g1]
      simp [List.filterMap_cons, hrow]
    · rw [g2]
      simp
      omega

lemma foldl_alldup (orders : List Rec) (s : BatchState)
    (hdup : ∀ r ∈ orders, ∃ oid, r.order_id = some oid ∧ oid ∈ s.existing) :
    orders.foldl processOrder s = { s with skipped := s.skipped + orders.length } := by
  induction orders generalizing s with
  | nil => rfl
  | cons r rest ih =>
    obtain ⟨oid, h1, h2⟩ := hdup r (by simp)
    have hstep : processOrder s r = { s with skipped := s.skipped + 1 } :=
      processOrder_dup h1 h2
    rw [List.foldl_cons, hstep,
      ih { s with skipped := s.skipped + 1 }
        (fun r2 hr2 => hdup r2 (by simp [hr2]))]
    simp
    omega

/-! ## Claims -/

/-- C1: a record whose `order_id` is already in the existing-key set
(pre-existing in the store, or inserted earlier in the same batch — both
feed `existing_ids`) increments only `skipped` and leaves the whole state,
in particular every stored row, unchanged; and the batch
`[recA1, recDupA1]` with a repeated `"A1"` on an empty store returns
`(inserted=1, skipped=1, errors=0)` with the first record's row stored
untouched. -/
theorem C1_duplicate_skipped_no_overwrite :
    (∀ (s : BatchState) (r : Rec) (oid : String),
      r.order_id = some oid → oid ∈ s.existing →
      processOrder s r = { s with skipped := s.skipped + 1 }) ∧
    (insert_orders ⟨[]⟩ [recA1, recDupA1]).1 = (1, 1, 0) ∧
    (insert_orders ⟨[]⟩ [recA1, recDupA1]).2 = ⟨[rowA1]⟩ := by
  refine ⟨?_, by decide, rfl⟩
  intro s r oid h1 h2
  exact processOrder_dup h1 h2

/-- Witness for C1 at a concrete duplicate record and state. -/
theorem C1_witness :
    processOrder stateA1 recDupA1 = { stateA1 with skipped := stateA1.skipped + 1 } :=
  C1_duplicate_skipped_no_overwrite.1 stateA1 recDupA1 "A1" rfl (by decide)

/-- C2 counterexample: the claim says the field-presence check runs before
the duplicate check, so a record missing `status`, `date` and `amount`
should count under `errors` even when its `order_id` is already stored.
The code reads only `order_id` before the duplicate test (line 114–115),
so on a store holding `"A1"` the record `{"order_id": "A1"}` is counted
as a skip: the result is `(inserted=0, skipped=1, errors=0)`, not
`errors=1`. -/
theorem C2_counterexample :
    (insert_orders dbA1 [recMissingStatus]).1 = (0, 1, 0) := by decide

/-- C2 (amended): a record missing `order_id` always increments `errors`
(the `KeyError` at line 114); a record whose `order_id` is present but not
in the current existing-key set and which misses `status`, `date` or
`amount` increments `errors` and writes no row.  Only when the `order_id`
is already in the existing-key set does the duplicate check fire first and
count the record as skipped. -/
theorem C2_missing_required_field_errors (s : BatchState) (r : Rec)
    (hnd : ∀ oid, r.order_id = some oid → oid ∉ s.existing)
    (hmiss : r.order_id = none ∨ r.status = none ∨ r.date = none ∨ r.amount = none) :
    processOrder s r = { s with errors := s.errors + 1 } := by
  apply processOrder_error hnd
  tauto

/-- Witness for C2 at a record with a fresh id and no `amount`. -/
theorem C2_witness :
    processOrder stateEmpty recNoAmount
      = { stateEmpty with errors := stateEmpty.errors + 1 } :=
  C2_missing_required_field_errors stateEmpty recNoAmount
    (by intro oid h; simp [stateEmpty])
    (by simp [recNoAmount])

/-- C3 counterexample: the claim quantifies over every sequence of valid,
not-yet-stored records, but a batch repeating the same valid record twice
returns `(1, 1, 0)` on its first run, not `(inserted=N=2, skipped=0,
errors=0)`: the second copy is caught by the in-batch duplicate check. -/
theorem C3_counterexample :
    (insert_orders ⟨[]⟩ [recA1, recA1]).1 = (1, 1, 0) := by decide

/-- C3 (amended with pairwise-distinct `order_id`s, which the
counterexample forces): for valid records with distinct ids none of which
is stored, the first run returns `(N, 0, 0)`; re-running `insert_orders`
on the resulting store with the identical sequence returns `(0, N, 0)`
and changes nothing, and the store holds exactly one row per `order_id`
(keys remain duplicate-free and every batch id is present). -/
theorem C3_idempotent_distinct (db : DB) (orders : List Rec)
    (hval : ∀ r ∈ orders, (toRow r).isSome)
    (hnodup : (orderIds orders).Nodup)
    (hfresh : ∀ oid ∈ orderIds orders, oid ∉ tableKeys db)
    (hkeys : (tableKeys db).Nodup) :
    (insert_orders db orders).1 = (orders.length, 0, 0) ∧
    (insert_orders (insert_orders db orders).2 orders).1 = (0, orders.length, 0) ∧
    (insert_orders (insert_orders db orders).2 orders).2 = (insert_orders db orders).2 ∧
    (tableKeys (insert_orders db orders).2).Nodup ∧
    (∀ oid ∈ orderIds orders, oid ∈ tableKeys (insert_orders db orders).2) := by
  have hsub0 : keysSub (initState db) := fun k hk => hk
  obtain ⟨g1, g2, g3, g4⟩ := foldl_fresh orders (initState db) hval hnodup hfresh hsub0
  have hkeys2 : tableKeys (orders.foldl processOrder (initState db)).db
      = tableKeys db ++ orderIds orders := by
    unfold tableKeys
    rw [g1]
    show (db.table ++ orders.filterMap toRow).map _ = _
    rw [List.map_append, keys_filterMap orders hval]
  have hdup2 : ∀ r ∈ orders, ∃ oid, r.order_id = some oid ∧
      oid ∈ tableKeys (orders.foldl processOrder (initState db)).db := by
    intro r hr
    obtain ⟨row, hrow⟩ := Option.isSome_iff_exists.mp (hval r hr)
    refine ⟨row.order_id, (toRow_fields hrow).1, ?_⟩
    rw [hkeys2]
    refine List.mem_append_right _ ?_
    exact List.mem_filterMap.mpr ⟨r, hr, (toRow_fields hrow).1⟩
  have hrun2 := foldl_alldup orders
    (initState (orders.foldl processOrder (initState db)).db) hdup2
  simp only [insert_orders]
  refine ⟨?_, ?_, ?_, ?_, ?_⟩
  · rw [g2, g3, g4]
    simp [initState]
  · rw [hrun2]
    simp [initState]
  · rw [hrun2]
    rfl
  · rw [hkeys2]
    exact List.Nodup.append hkeys hnodup (fun a ha hb => hfresh a hb ha)
  · intro oid hm
    show oid ∈ tableKeys (orders.foldl processOrder (initState db)).db
    rw [hkeys2]
    exact List.mem_append_right _ hm

/-- Witness for C3 at the two-record batch `[recA1, recB2]` on an empty
store. -/
theorem C3_witness :
    (insert_orders ⟨[]⟩ [recA1, recB2]).1 = (2, 0, 0) :=
  (C3_idempotent_distinct ⟨[]⟩ [recA1, recB2]
    (by decide) (by decide) (by decide) (by decide)).1

/-- C4: a record whose `date` is present but not ISO-8601-parsable
increments only `errors` and writes no row, whatever the other fields
hold, provided its `order_id` does not duplicate an existing key (the
duplicate check at line 115 runs before the date parse at line 127); the
batch is not aborted: in `[recBadDate, recB2]` the bad-date record counts
under `errors` and the following record is inserted normally. -/
theorem C4_unparsable_date_errors :
    (∀ (s : BatchState) (r : Rec) (ds : String),
      r.date = some ds → fromisoformat ds = none →
      (∀ oid, r.order_id = some oid → oid ∉ s.existing) →
      processOrder s r = { s with errors := s.errors + 1 }) ∧
    insert_orders ⟨[]⟩ [recBadDate, recB2] = ((1, 0, 1), ⟨[rowB2]⟩) := by
  refine ⟨?_, by decide⟩
  intro s r ds h1 h2 hnd
  exact processOrder_error hnd
    (Or.inr (Or.inr (Or.inr (Or.inr (Or.inl ⟨ds, h1, h2⟩)))))

/-- Witness for C4 at the `"not-a-date"` record on an empty state. -/
theorem C4_witness :
    processOrder stateEmpty recBadDate
      = { stateEmpty with errors := stateEmpty.errors + 1 } :=
  C4_unparsable_date_errors.1 stateEmpty recBadDate "not-a-date" rfl rfl
    (by intro oid h; simp [stateEmpty])

/-- C5: `customer.region` is absent both when the `customer` mapping is
missing and when it lacks a `region` key (first two conjuncts, matching
`raw.get("customer", {}).get("region")`); such a record increments only
`errors` and writes no row — the step function is total, so no crash —
provided its `order_id` does not duplicate an existing key (a duplicate
is skipped at line 115 before the region check at line 135). -/
theorem C5_missing_region_errors :
    (∀ r : Rec, r.customer = none → r.region = none) ∧
    (∀ r : Rec, r.customer = some none → r.region = none) ∧
    (∀ (s : BatchState) (r : Rec),
      r.region = none →
      (∀ oid, r.order_id = some oid → oid ∉ s.existing) →
      processOrder s r = { s with errors := s.errors + 1 }) := by
  refine ⟨?_, ?_, ?_⟩
  · intro r h
    simp [Rec.region, h]
  · intro r h
    simp [Rec.region, h]
  · intro s r h hnd
    exact processOrder_error hnd (by tauto)

/-- Witness for C5 at a record with no `customer` mapping at all. -/
theorem C5_witness :
    processOrder stateEmpty recNoRegion
      = { stateEmpty with errors := stateEmpty.errors + 1 } :=
  C5_missing_region_errors.2.2 stateEmpty recNoRegion rfl
    (by intro oid h; simp [stateEmpty])

/-- C6: the single-record scenario: on an empty store, the batch
`[recA1]` returns `(inserted=1, skipped=0, errors=0)` and the store then
holds exactly the one row `("A1", "paid", 2024-01-05T10:00:00, 9.99,
"EU")` with the nested region flattened and the date parsed. -/
theorem C6_single_valid_record_scenario :
    insert_orders ⟨[]⟩ [recA1] = ((1, 0, 0), ⟨[rowA1]⟩) ∧
    rowA1 = ⟨"A1", "paid", ⟨2024, 1, 5, 10, 0, 0⟩, (9.99 : ℚ), "EU"⟩ ∧
    fromisoformat "2024-01-05T10:00:00" = some ⟨2024, 1, 5, 10, 0, 0⟩ :=
  ⟨rfl, rfl, rfl⟩

/-- C7: the in-memory existing-key set is seeded as exactly the table's
keys (first conjunct, line 109), every loop iteration preserves the
superset property — a successful insert adds its key to the set in the
same step (second conjunct, lines 149–150) — and hence at every point of
any run starting from the seeded state, so in particular after any list
of iterations, the set contains all keys persisted so far (third
conjunct). -/
theorem C7_existing_ids_superset_invariant :
    (∀ db : DB, get_existing_order_ids db = tableKeys db) ∧
    (∀ (s : BatchState) (r : Rec), keysSub s → keysSub (processOrder s r)) ∧
    (∀ (db : DB) (orders : List Rec),
      keysSub (orders.foldl processOrder (initState db))) := by
  refine ⟨fun _ => rfl, fun s r hs => processOrder_keysSub hs r, ?_⟩
  intro db orders
  exact foldl_keysSub orders (initState db) (fun k hk => hk)

/-- Witness for C7: one preservation step at a concrete state. -/
theorem C7_witness : keysSub (processOrder stateA1 recDupA1) :=
  C7_existing_ids_superset_invariant.2.1 stateA1 recDupA1 (by decide)

/-- C8: `load_json` fails with `NotFound` exactly when the path does not
exist, fails with `ParseError` exactly when the file exists but its
content is not valid JSON, and otherwise returns the parser's record
sequence as is — same order, nothing dropped, modified or partially
loaded. -/
theorem C8_load_json_contract (fs : String → Option String)
    (jsonLoad : String → Option (List Rec)) (path : String) :
    (load_json fs jsonLoad path = .error .NotFound ↔ fs path = none) ∧
    (load_json fs jsonLoad path = .error .ParseError ↔
      ∃ content, fs path = some content ∧ jsonLoad content = none) ∧
    (∀ content data, fs path = some content → jsonLoad content = some data →
      load_json fs jsonLoad path = .ok data) := by
  unfold load_json
  cases hfs : fs path with
  | none => simp
  | some c =>
    cases hp : jsonLoad c with
    | none =>
      refine ⟨by simp [hp], by simp [hp], ?_⟩
      intro content data h1 h2
      injection h1 with h1
      subst h1
      rw [hp] at h2
      exact Option.noConfusion h2
    | some d =>
      refine ⟨by simp [hp], by simp [hp], ?_⟩
      intro content data h1 h2
      injection h1 with h1
      subst h1
      dsimp only
      rw [h2]

/-- Witness for C8 on the empty filesystem. -/
theorem C8_witness :
    load_json fsEmpty (fun _ => none) "orders-1.json" = .error .NotFound :=
  (C8_load_json_contract fsEmpty (fun _ => none) "orders-1.json").1.mpr rfl

/-- C9 (implicit conservation): every record increments exactly one
counter, so `insert_orders` always returns
`inserted + skipped + errors = number of input records`. -/
theorem C9_counter_conservation (db : DB) (orders : List Rec) :
    ((insert_orders db orders).1).1 + ((insert_orders db orders).1).2.1
      + ((insert_orders db orders).1).2.2 = orders.length := by
  show (orders.foldl processOrder (initState db)).inserted
      + (orders.foldl processOrder (initState db)).skipped
      + (orders.foldl processOrder (initState db)).errors = orders.length
  rw [foldl_counter_sum]
  simp [initState]

/-- C10: `close` never throws: with a `None` handle (fresh instance, or
`connect` never succeeded) the `if self.conn:` guard makes it a no-op —
without the guard the call would raise `AttributeError`, as `pyCallClose`
shows — and with a live or already-closed connection
`sqlite3.Connection.close()` succeeds, so a second `close` is safe too. -/
theorem C10_close_never_throws :
    (∀ d : OrdersDatabase, ∃ d2, OrdersDatabase.close d = .ok d2 ∧
      ∃ d3, OrdersDatabase.close d2 = .ok d3) ∧
    (∀ d : OrdersDatabase, d.conn = none → OrdersDatabase.close d = .ok d) ∧
    OrdersDatabase.close OrdersDatabase.init = .ok OrdersDatabase.init ∧
    pyCallClose none = .error .attributeError := by
  refine ⟨?_, ?_, rfl, rfl⟩
  · intro d
    cases hc : d.conn with
    | none =>
      refine ⟨d, ?_, d, ?_⟩ <;> simp [OrdersDatabase.close, hc]
    | some b =>
      refine ⟨⟨some false⟩, ?_, ⟨some false⟩, ?_⟩ <;>
        simp [OrdersDatabase.close, connClose, hc]
  · intro d h
    simp [OrdersDatabase.close, h]

/-- Witness for C10 on a never-connected instance. -/
theorem C10_witness :
    OrdersDatabase.close OrdersDatabase.init = .ok OrdersDatabase.init :=
  C10_close_never_throws.2.1 OrdersDatabase.init rfl
